import Mathlib

/-!
Shallow embedding of the helper routines of the lecture notebooks
`Lecture-13-Integral-Transforms.ipynb` and `Lecture-10A-Taylors-Series.ipynb`.

Numeric arrays are modelled over exact real and complex arithmetic
(`ℝ`, `ℂ`); a 1-D array of length `N` is a function `Fin N → ℝ` or a
`List ℝ`; the value `np.pi` is `Real.pi` and `2j` is `2 * Complex.I`.
-/

open scoped BigOperators

/-- The DFT matrix entry built inside `DFT_slow`:
`M = np.exp(-2j * np.pi * k * n / N)`, entry at row `k`, column `n`. -/
noncomputable def M_dft (N k n : ℕ) : ℂ :=
  Complex.exp (-2 * Complex.I * (Real.pi : ℂ) * k * n / N)

/-- `DFT_slow` from the notebook:
```
def DFT_slow(x):
    x = np.asarray(x, dtype=float)
    N = x.shape[0]
    n = np.arange(N)
    k = n.reshape((N, 1))
    M = np.exp(-2j * np.pi * k * n / N)
    return np.dot(M, x)
```
modelled on an already-coerced real vector of length `N`; the matrix-vector
product `np.dot(M, x)` has `k`-th entry `∑ n, M k n * x n`.
(The `np.asarray(x, dtype=float)` coercion step is modelled separately by
`asarray_float` and `DFT_slow_py` below.) -/
noncomputable def DFT_slow (N : ℕ) (x : Fin N → ℝ) : Fin N → ℂ :=
  fun k => ∑ n : Fin N, M_dft N k n * (x n : ℂ)

/-- Modelled from the spec: `np.fft.fft` is external library code (the spec
treats the numeric array / FFT library as a black-box external collaborator),
so it is modelled by the forward-DFT formula the notebook states for it:
`X_k = ∑_{n=0}^{N-1} x_n · e^{-i 2π k n / N}`. -/
noncomputable def np_fft (N : ℕ) (x : Fin N → ℂ) : Fin N → ℂ :=
  fun k => ∑ n : Fin N, x n * Complex.exp (-Complex.I * 2 * (Real.pi : ℂ) * k * n / N)

/-- The local constant `param = 64.0` of `atomic_func`. -/
def param : ℝ := 64

/-- `atomic_func` from the notebook:
```
def atomic_func(x,y):
    param = 64.0
    return (1+np.sin(4*(x+y)*2*np.pi/param))*(1+np.sin(2*(x-2*y)*2*np.pi/param))/4
```
-/
noncomputable def atomic_func (x y : ℝ) : ℝ :=
  (1 + Real.sin (4 * (x + y) * 2 * Real.pi / param)) *
    (1 + Real.sin (2 * (x - 2 * y) * 2 * Real.pi / param)) / 4

/-- `aperture` from the notebook:
```
def aperture(X, Y, xoffset, yoffset, size):
    return (X-xoffset)**2+(Y-yoffset)**2 > size**2
```
-/
def aperture (X Y xoffset yoffset size : ℝ) : Prop :=
  (X - xoffset) ^ 2 + (Y - yoffset) ^ 2 > size ^ 2

open Classical in
/-- The masking step of the microscopy demo:
```
P = np.copy(K)
P[np.where(aperture(X, Y, 128, 128, 3) & aperture(X, Y, 150, 128, 3))] = 0
```
where `X, Y = np.meshgrid(np.arange(0,256), np.arange(0,256))`, so at array
position `(i, j)` the grid values are `X = j` and `Y = i`.  `P_masked K i j`
is the entry of `P` at position `(i, j)` when `K` holds the spectrum. -/
noncomputable def P_masked (K : ℕ → ℕ → ℂ) (i j : ℕ) : ℂ :=
  if aperture (j : ℝ) (i : ℝ) 128 128 3 ∧ aperture (j : ℝ) (i : ℝ) 150 128 3 then 0
  else K i j

/-- A sympy expression in one variable, as produced by `fx = func(xs)` in
`plot_taylor_approximations`, modelled by the data the helper consumes:
`coeff x0 j` is the `j`-th Taylor coefficient of the expression about `x0`
(the coefficient of `(x - x0)^j` produced by `fx.series(xs, x0, n).removeO()`),
and `lambdified` is the numeric form produced by `sp.lambdify`. -/
structure SymExpr where
  coeff : ℝ → ℕ → ℝ
  lambdified : ℝ → ℝ

/-- A Python object passed as the `func` argument: it may or may not be
callable; when callable, applying it to the symbol `xs` yields the
symbolic expression `fx`. -/
structure PyFunc where
  callable : Bool
  fx : SymExpr

/-- Python exceptions raised by the helpers or the libraries they call:
the explicit `raise ValueError(...)` of the callability check, the
`TypeError` of a failing float coercion, and the `IndexError` of `x[0]`
on an empty array. -/
inductive PyError where
  | valueError : String → PyError
  | typeError : String → PyError
  | indexError : String → PyError

/-- The `xrange` argument of `plot_taylor_approximations`: either an
`(xmin, xmax)` tuple/list, or the actual array of values to use. -/
inductive XRange where
  | pair : ℝ → ℝ → XRange
  | arr : List ℝ → XRange

/-- `np.linspace(a, b, num)`: `num` evenly spaced samples from `a` to `b`
inclusive (sample `i` is `a + (b - a) * i / (num - 1)`; for `num = 1` the
single sample is `a`, division by zero being zero). -/
noncomputable def linspace (a b : ℝ) (num : ℕ) : List ℝ :=
  (List.range num).map fun i : ℕ => a + (b - a) * (i : ℝ) / ((num - 1 : ℕ) : ℝ)

/-- `fx.series(xs, x0, n=order).removeO()` evaluated at `t`: the Taylor
polynomial of the expression about `x0` keeping the terms of degree below
`order` (sympy's `n=order` truncates at `O((x - x0)^order)`). -/
noncomputable def seriesRemoveO (e : SymExpr) (x0 : ℝ) (order : ℕ) (t : ℝ) : ℝ :=
  ∑ j in Finset.range order, e.coeff x0 j * (t - x0) ^ j

/-- `isinstance(app, sp.numbers.Number)`: the truncated series is a bare
number exactly when every term of positive degree vanishes. -/
def isNumberTrunc (e : SymExpr) (x0 : ℝ) (order : ℕ) : Prop :=
  ∀ j, 1 ≤ j → j < order → e.coeff x0 j = 0

/-- `app.evalf()` when `app` is a number: the constant term of the truncated
series (for `order = 0` the truncation is the empty sum `0`). -/
def constFill (e : SymExpr) (x0 : ℝ) (order : ℕ) : ℝ :=
  if order = 0 then 0 else e.coeff x0 0

open Classical in
/-- The body of the `for order in orders` loop: the `y` array plotted for one
order.  If the truncated series is a constant number, a constant-filled array
is built with `np.zeros_like` / `fill`; otherwise the lambdified truncation is
evaluated on the sample points. -/
noncomputable def orderCurve (e : SymExpr) (x0 : ℝ) (order : ℕ) (xs : List ℝ) : List ℝ :=
  if isNumberTrunc e x0 order then xs.map fun _ => constFill e x0 order
  else xs.map (seriesRemoveO e x0 order)

/-- The data plotted by one call of `plot_taylor_approximations`: the sample
points, the sampled original function, and one `(order, y-array)` curve per
entry of `orders`. -/
structure PlotData where
  xs : List ℝ
  base : List ℝ
  curves : List (ℕ × List ℝ)

/-- A drawing command recorded in the shared global pyplot figure state:
`plt.plot(x, y, ...)`, `plt.ylim(ymin, ymax)`, `plt.grid()`,
`plt.legend(...)`.  The label strings and styling options (`label=`, `lw=2`,
`set_alpha`) are presentational and carry no numeric content. -/
inductive PltCmd where
  | plot : List ℝ → List ℝ → PltCmd
  | ylim : ℝ → ℝ → PltCmd
  | grid : PltCmd
  | legend : PltCmd

/-- The shared global pyplot figure state (matplotlib's module-level current
figure registry): the list of drawing commands issued so far, in order. -/
abbrev PltState := List PltCmd

/-- The drawing commands one call of `plot_taylor_approximations` appends to
the shared pyplot state, in source order: the base plot
`plt.plot(x, f(x), ...)`, one `plt.plot(x, y, ...)` per entry of `orders`,
`plt.ylim(*yrange)` when `yrange` is given, then `plt.grid()` and
`plt.legend(...)`. -/
def pltEmitted (x base : List ℝ) (curves : List (ℕ × List ℝ))
    (yrange : Option (ℝ × ℝ)) : PltState :=
  PltCmd.plot x base ::
    (curves.map fun c => PltCmd.plot x c.2) ++
      (match yrange with
        | none => []
        | some p => [PltCmd.ylim p.1 p.2]) ++
      [PltCmd.grid, PltCmd.legend]

/-- The part of `plot_taylor_approximations` after the sample array `x` and
the expansion point `x0` are fixed: lambdify and plot the original function,
run the `for order in orders` loop, apply the plot refinements.  Returns the
plotted data together with the new shared pyplot state. -/
noncomputable def plotCurves (e : SymExpr) (x0 : ℝ) (orders : List ℕ) (x : List ℝ)
    (yrange : Option (ℝ × ℝ)) (plt0 : PltState) : PlotData × PltState :=
  let base := x.map e.lambdified
  let curves := orders.map fun order => (order, orderCurve e x0 order x)
  ({ xs := x, base := base, curves := curves }, plt0 ++ pltEmitted x base curves yrange)

/-- The sample-array step
`x = np.linspace(float(xrange[0]), float(xrange[1]), npts)` when `xrange`
is a tuple or list, else `x = xrange` used as the array of values. -/
noncomputable def sampleArray (xrange : XRange) (npts : ℕ) : List ℝ :=
  match xrange with
  | .pair a b => linspace a b npts
  | .arr v => v

/-- The step `if x0 is None: x0 = x[0]` followed by the rest of the body:
on an empty sample array with no explicit `x0`, the subscript `x[0]` raises
`IndexError`; otherwise the default expansion point is the first sample. -/
noncomputable def defaultX0 (e : SymExpr) (x0opt : Option ℝ) (orders : List ℕ)
    (x : List ℝ) (yrange : Option (ℝ × ℝ)) (plt0 : PltState) :
    Except PyError (PlotData × PltState) :=
  match x0opt, x with
  | none, [] => .error (.indexError "index 0 is out of bounds for axis 0 with size 0")
  | none, t :: r => .ok (plotCurves e t orders (t :: r) yrange plt0)
  | some v, _ => .ok (plotCurves e v orders x yrange plt0)

/-- `plot_taylor_approximations(func, x0, orders, xrange, yrange, npts)` from
the notebook:
```
if not callable(func):
    raise ValueError('func must be callable')
if isinstance(xrange, (list, tuple)):
    x = np.linspace(float(xrange[0]), float(xrange[1]), npts)
else:
    x = xrange
if x0 is None: x0 = x[0]
xs = sp.Symbol('x')
fx = func(xs)
f = sp.lambdify(xs, fx, modules=['numpy'])
plt.plot(x, f(x), label=str(fx), lw=2)
for order in orders:
    app = fx.series(xs, x0, n=order).removeO()
    if isinstance(app, sp.numbers.Number):
        y = np.zeros_like(x); y.fill(app.evalf())
    else:
        fa = sp.lambdify(xs, app, modules=['numpy']); y = fa(x)
    plt.plot(x, y, label=...)
if yrange is not None:
    plt.ylim(*yrange)
plt.grid()
plt.legend(loc='best').get_frame().set_alpha(0.8)
```
The Python function returns `None`: its observable effects are the exception
it may raise and the drawing commands it appends to the shared global pyplot
figure state.  The embedding threads that shared state explicitly
(`plt0` in, new state out) and also returns the plotted data. -/
noncomputable def plot_taylor_approximations (func : PyFunc) (x0opt : Option ℝ)
    (orders : List ℕ) (xrange : XRange) (yrange : Option (ℝ × ℝ)) (npts : ℕ)
    (plt0 : PltState) : Except PyError (PlotData × PltState) :=
  if func.callable = false then .error (.valueError "func must be callable")
  else
    defaultX0 func.fx x0opt orders (sampleArray xrange npts) yrange plt0

/-- A Python scalar handed to `DFT_slow`: either real-valued or complex. -/
inductive PyNum where
  | real : ℝ → PyNum
  | cplx : ℂ → PyNum

/-- Modelled from the spec: the float coercion performed element-wise by the
external array library in `np.asarray(x, dtype=float)` — a real scalar is
kept, while converting a complex value to float raises a `TypeError`. -/
def floatOfPyNum : PyNum → Except PyError ℝ
  | .real r => .ok r
  | .cplx _ => .error (.typeError "cannot convert complex to float")

/-- `np.asarray(x, dtype=float)` on a 1-D input: coerce every element to
float, propagating the first failure. -/
def asarray_float : List PyNum → Except PyError (List ℝ)
  | [] => .ok []
  | p :: ps =>
    match floatOfPyNum p with
    | .error e => .error e
    | .ok r =>
      match asarray_float ps with
      | .error e => .error e
      | .ok rs => .ok (r :: rs)

/-- `DFT_slow` including its first line `x = np.asarray(x, dtype=float)`:
the input list is coerced to a real array first, and only then transformed. -/
noncomputable def DFT_slow_py (xs : List PyNum) : Except PyError (List ℂ) :=
  match asarray_float xs with
  | .error e => .error e
  | .ok r => .ok ((List.finRange r.length).map (DFT_slow r.length r.get))

/-- The symbolic expression that is identically zero (all Taylor
coefficients zero, numeric form constantly zero). -/
def zeroExpr : SymExpr :=
  { coeff := fun _ _ => 0, lambdified := fun _ => 0 }

/-- A callable `func` argument whose expression is `zeroExpr`. -/
def zeroPyFunc : PyFunc :=
  { callable := true, fx := zeroExpr }

/-- A non-callable `func` argument. -/
def notCallableFunc : PyFunc :=
  { callable := false, fx := zeroExpr }

/-- Claim C1: `DFT_slow` returns the dense matrix-vector product `M · x` with
`M_{kn} = exp(-2πi·k·n/N)`: the `k`-th output component is
`∑_{n=0}^{N-1} x[n] · exp(-2πi·k·n/N)`, the textbook discrete Fourier
transform. -/
theorem C1_DFT_slow_is_textbook_dft (N : ℕ) (x : Fin N → ℝ) (k : Fin N) :
    DFT_slow N x k =
      ∑ n : Fin N, (x n : ℂ) *
        Complex.exp (-2 * (Real.pi : ℂ) * Complex.I * k * n / N) := by
  unfold DFT_slow M_dft
  refine Finset.sum_congr rfl fun n _ => ?_
  rw [mul_comm]
  congr 2
  ring

/-- Claim C2: over exact complex arithmetic, `DFT_slow` agrees with the
library fast Fourier transform (`np_fft`, modelled from the forward-DFT
formula the notebook states for `np.fft.fft`) on every real-valued input
vector. -/
theorem C2_DFT_slow_agrees_with_np_fft (N : ℕ) (x : Fin N → ℝ) :
    DFT_slow N x = np_fft N (fun n => (x n : ℂ)) := by
  funext k
  unfold DFT_slow np_fft M_dft
  refine Finset.sum_congr rfl fun n _ => ?_
  rw [mul_comm]
  congr 2
  ring

/-- Claim C5: `atomic_func` is periodic in both dimensions with positive
periods `Px = 32` in `x` and `Py = 16` in `y` (for `param = 64`). -/
theorem C5_atomic_func_periodic :
    (0 : ℝ) < 32 ∧ (0 : ℝ) < 16 ∧
      ∀ x y : ℝ, atomic_func (x + 32) y = atomic_func x y ∧
        atomic_func x (y + 16) = atomic_func x y := by
  refine ⟨by norm_num, by norm_num, fun x y => ⟨?_, ?_⟩⟩
  · unfold atomic_func param
    have h1 : 4 * (x + 32 + y) * 2 * Real.pi / 64 =
        4 * (x + y) * 2 * Real.pi / 64 + (2 : ℕ) * (2 * Real.pi) := by
      push_cast
      ring
    have h2 : 2 * (x + 32 - 2 * y) * 2 * Real.pi / 64 =
        2 * (x - 2 * y) * 2 * Real.pi / 64 + 2 * Real.pi := by
      ring
    rw [h1, h2, Real.sin_add_nat_mul_two_pi, Real.sin_add_two_pi]
  · unfold atomic_func param
    have h1 : 4 * (x + (y + 16)) * 2 * Real.pi / 64 =
        4 * (x + y) * 2 * Real.pi / 64 + 2 * Real.pi := by
      ring
    have h2 : 2 * (x - 2 * (y + 16)) * 2 * Real.pi / 64 =
        2 * (x - 2 * y) * 2 * Real.pi / 64 - 2 * Real.pi := by
      ring
    rw [h1, h2, Real.sin_add_two_pi, Real.sin_sub_two_pi]

/-- Claim C9: the value `atomic_func x y` always lies in the closed interval
`[0, 1]`: it is a product of two factors of the form `(1 + sin _) / 2`,
each in `[0, 1]`. -/
theorem C9_atomic_func_range (x y : ℝ) :
    0 ≤ atomic_func x y ∧ atomic_func x y ≤ 1 := by
  unfold atomic_func
  have ha1 := Real.neg_one_le_sin (4 * (x + y) * 2 * Real.pi / param)
  have ha2 := Real.sin_le_one (4 * (x + y) * 2 * Real.pi / param)
  have hb1 := Real.neg_one_le_sin (2 * (x - 2 * y) * 2 * Real.pi / param)
  have hb2 := Real.sin_le_one (2 * (x - 2 * y) * 2 * Real.pi / param)
  constructor
  · nlinarith
  · nlinarith

/-- Claim C6: `aperture X Y xoffset yoffset size` holds exactly when
`(X - xoffset)^2 + (Y - yoffset)^2 > size^2`, and the masking step zeroes
precisely the spectrum entries strictly outside both circular apertures while
leaving every entry inside (or on the boundary of) either circle unchanged. -/
theorem C6_aperture_circular_masking :
    (∀ X Y xoffset yoffset size : ℝ,
        aperture X Y xoffset yoffset size ↔
          (X - xoffset) ^ 2 + (Y - yoffset) ^ 2 > size ^ 2) ∧
      ∀ (K : ℕ → ℕ → ℂ) (i j : ℕ),
        ((((j : ℝ) - 128) ^ 2 + ((i : ℝ) - 128) ^ 2 > 3 ^ 2 ∧
            ((j : ℝ) - 150) ^ 2 + ((i : ℝ) - 128) ^ 2 > 3 ^ 2) →
          P_masked K i j = 0) ∧
        ((((j : ℝ) - 128) ^ 2 + ((i : ℝ) - 128) ^ 2 ≤ 3 ^ 2 ∨
            ((j : ℝ) - 150) ^ 2 + ((i : ℝ) - 128) ^ 2 ≤ 3 ^ 2) →
          P_masked K i j = K i j) := by
  refine ⟨fun _ _ _ _ _ => Iff.rfl, fun K i j => ⟨?_, ?_⟩⟩
  · intro h
    unfold P_masked
    rw [if_pos]
    exact h
  · intro h
    unfold P_masked
    rw [if_neg]
    intro hc
    rcases h with h | h
    · exact absurd hc.1 (not_lt.mpr h)
    · exact absurd hc.2 (not_lt.mpr h)

/-- Witness for C6 at concrete grid points: the corner `(0, 0)` lies strictly
outside both apertures and is zeroed; the first aperture centre `(128, 128)`
is inside the first circle and is left unchanged. -/
theorem C6_aperture_circular_masking_witness :
    P_masked (fun _ _ => (1 : ℂ)) 0 0 = 0 ∧
      P_masked (fun _ _ => (1 : ℂ)) 128 128 = 1 :=
  ⟨(C6_aperture_circular_masking.2 (fun _ _ => (1 : ℂ)) 0 0).1
      ⟨by norm_num, by norm_num⟩,
    (C6_aperture_circular_masking.2 (fun _ _ => (1 : ℂ)) 128 128).2
      (Or.inl (by norm_num))⟩

/-- When the truncated series is a bare number, the constant fill value
agrees with the truncated polynomial at every sample point. -/
theorem constFill_eq_seriesRemoveO (e : SymExpr) (x0 : ℝ) (order : ℕ)
    (h : isNumberTrunc e x0 order) (t : ℝ) :
    constFill e x0 order = seriesRemoveO e x0 order t := by
  unfold constFill seriesRemoveO
  rcases Nat.eq_zero_or_pos order with h0 | h0
  · subst h0
    simp
  · rw [if_neg (Nat.pos_iff_ne_zero.mp h0)]
    have hs : ∑ j in Finset.range order, e.coeff x0 j * (t - x0) ^ j
        = e.coeff x0 0 * (t - x0) ^ 0 := by
      refine Finset.sum_eq_single 0 (fun j hj hj0 => ?_) (fun hnot => ?_)
      · rw [h j (Nat.one_le_iff_ne_zero.mpr hj0) (Finset.mem_range.mp hj), zero_mul]
      · exact absurd (Finset.mem_range.mpr h0) hnot
    rw [hs, pow_zero, mul_one]

/-- Both branches of the constant-number test produce the values of the
truncated Taylor polynomial on the sample points. -/
theorem orderCurve_eq_map (e : SymExpr) (x0 : ℝ) (order : ℕ) (xs : List ℝ) :
    orderCurve e x0 order xs = xs.map (seriesRemoveO e x0 order) := by
  unfold orderCurve
  by_cases h : isNumberTrunc e x0 order
  · rw [if_pos h]
    exact List.map_congr_left fun t _ => constFill_eq_seriesRemoveO e x0 order h t
  · rw [if_neg h]

/-- `np.linspace(a, b, num)` has exactly `num` samples. -/
theorem linspace_length (a b : ℝ) (num : ℕ) : (linspace a b num).length = num := by
  unfold linspace
  rw [List.length_map, List.length_range]

/-- Sample `i` of `np.linspace(a, b, num)` is `a + (b - a) * i / (num - 1)`. -/
theorem linspace_getD (a b : ℝ) (num : ℕ) (i : ℕ) (h : i < num) :
    (linspace a b num).getD i 0 = a + (b - a) * i / ((num - 1 : ℕ) : ℝ) := by
  unfold linspace
  rw [List.getD_eq_getElem?_getD, List.getElem?_map, List.getElem?_range h]
  rfl

/-- Coercing a list of real scalars to a float array keeps them all. -/
theorem asarray_float_map_real (rs : List ℝ) :
    asarray_float (rs.map PyNum.real) = .ok rs := by
  induction rs with
  | nil => rfl
  | cons r rs ih => simp [asarray_float, floatOfPyNum, ih]

/-- Coercing a list that contains a complex scalar to a float array fails. -/
theorem asarray_float_error_of_cplx (xs : List PyNum) (z : ℂ)
    (hz : PyNum.cplx z ∈ xs) : ∃ e, asarray_float xs = .error e := by
  induction xs with
  | nil => cases hz
  | cons p ps ih =>
    rcases List.mem_cons.mp hz with h | h
    · rw [← h]
      exact ⟨.typeError "cannot convert complex to float", rfl⟩
    · rcases ih h with ⟨e, he⟩
      cases hp : floatOfPyNum p with
      | error e₂ => exact ⟨e₂, by simp [asarray_float, hp]⟩
      | ok r => exact ⟨e, by simp [asarray_float, hp, he]⟩

/-- After the callability check, the body never raises a `ValueError`: its
only other exception is the `IndexError` of `x[0]` on an empty sample
array. -/
theorem defaultX0_no_valueError (e : SymExpr) (x0opt : Option ℝ) (orders : List ℕ)
    (x : List ℝ) (yrange : Option (ℝ × ℝ)) (plt0 : PltState) (msg : String) :
    defaultX0 e x0opt orders x yrange plt0 ≠ .error (.valueError msg) := by
  cases x0opt with
  | some v => exact fun h => Except.noConfusion h
  | none =>
    cases x with
    | nil =>
      intro h
      injection h with h2
      exact PyError.noConfusion h2
    | cons t r => exact fun h => Except.noConfusion h

/-- The body after the callability check either completes normally with the
plotted curves, or raises the `IndexError` of `x[0]` on an empty sample
array with no explicit expansion point. -/
theorem defaultX0_cases (e : SymExpr) (x0opt : Option ℝ) (orders : List ℕ)
    (x : List ℝ) (yrange : Option (ℝ × ℝ)) (plt0 : PltState) :
    (∃ x0, defaultX0 e x0opt orders x yrange plt0 =
        .ok (plotCurves e x0 orders x yrange plt0)) ∨
      (x0opt = none ∧ x = [] ∧ defaultX0 e x0opt orders x yrange plt0 =
        .error (.indexError "index 0 is out of bounds for axis 0 with size 0")) := by
  cases x0opt with
  | some v => exact Or.inl ⟨v, rfl⟩
  | none =>
    cases x with
    | nil => exact Or.inr ⟨rfl, rfl, rfl⟩
    | cons t r => exact Or.inl ⟨t, rfl⟩

/-- Claim C3: `plot_taylor_approximations` raises a `ValueError` exactly when
its `func` argument is not callable, and the exception is then
`ValueError('func must be callable')`; for every callable `func` the
input-type check passes and raises nothing (the only other exception of the
body, the `IndexError` of `x[0]` on an empty sample array, is not a
`ValueError` and does not come from the check).  The other helpers are
embedded as total functions: their bodies contain no raise statement and no
exception handling. -/
theorem C3_single_input_type_check (func : PyFunc) (x0opt : Option ℝ)
    (orders : List ℕ) (xrange : XRange) (yrange : Option (ℝ × ℝ)) (npts : ℕ)
    (plt0 : PltState) :
    ((∃ msg, plot_taylor_approximations func x0opt orders xrange yrange npts plt0 =
        .error (.valueError msg)) ↔ func.callable = false) ∧
      (func.callable = false →
        plot_taylor_approximations func x0opt orders xrange yrange npts plt0 =
          .error (.valueError "func must be callable")) := by
  obtain ⟨cb, fxe⟩ := func
  cases cb with
  | false => exact ⟨⟨fun _ => rfl, fun _ => ⟨"func must be callable", rfl⟩⟩, fun _ => rfl⟩
  | true =>
    refine ⟨⟨?_, fun h => Bool.noConfusion h⟩, fun h => Bool.noConfusion h⟩
    rintro ⟨msg, h⟩
    exact absurd h (defaultX0_no_valueError fxe x0opt orders _ yrange plt0 msg)

/-- Witness for C3: a non-callable argument is rejected with the exact
`ValueError`, and that error realises the iff at this input. -/
theorem C3_single_input_type_check_witness :
    plot_taylor_approximations notCallableFunc none [] (.arr []) none 0 [] =
        .error (.valueError "func must be callable") ∧
      notCallableFunc.callable = false :=
  ⟨(C3_single_input_type_check notCallableFunc none [] (.arr []) none 0 []).2 rfl,
    (C3_single_input_type_check notCallableFunc none [] (.arr []) none 0 []).1.mp
      ⟨"func must be callable",
        (C3_single_input_type_check notCallableFunc none [] (.arr []) none 0 []).2 rfl⟩⟩

/-- Counterexample to claim C4 as stated: `plot_taylor_approximations` is not
free of shared mutable state.  At the concrete input below (a callable
`func`, explicit `x0`, empty `orders`, empty sample array), a call started
from the empty shared pyplot figure state ends with a nonempty one: the
helper wrote the shared global pyplot state (`plt.plot`, `plt.grid`,
`plt.legend`) outside its own locals. -/
theorem C4_pyplot_write_counterexample :
    plot_taylor_approximations zeroPyFunc (some 0) [] (.arr []) none 0 [] =
      .ok ({ xs := [], base := [], curves := [] },
        [PltCmd.plot [] [], PltCmd.grid, PltCmd.legend]) ∧
      [PltCmd.plot [] [], PltCmd.grid, PltCmd.legend] ≠ ([] : PltState) :=
  ⟨rfl, List.cons_ne_nil _ _⟩

/-- Claim C4 (amended): `DFT_slow`, `atomic_func` and `aperture` are pure
functions — deterministic, reading and writing no state beyond their
arguments and locals.  `plot_taylor_approximations` is deterministic given
equal arguments and an equal initial shared pyplot figure state, but it is
not pure: every normally completing call appends a nonempty list of drawing
commands to the shared global pyplot state. -/
theorem C4_helpers_deterministic :
    (∀ (N : ℕ) (x y : Fin N → ℝ), x = y → DFT_slow N x = DFT_slow N y) ∧
      (∀ x y x₂ y₂ : ℝ, x = x₂ → y = y₂ → atomic_func x y = atomic_func x₂ y₂) ∧
      (∀ X Y xo yo s X₂ Y₂ xo₂ yo₂ s₂ : ℝ,
        X = X₂ → Y = Y₂ → xo = xo₂ → yo = yo₂ → s = s₂ →
          (aperture X Y xo yo s ↔ aperture X₂ Y₂ xo₂ yo₂ s₂)) ∧
      (∀ (f g : PyFunc) (x0opt : Option ℝ) (orders : List ℕ) (xr : XRange)
          (yr : Option (ℝ × ℝ)) (npts : ℕ) (s0 s1 : PltState),
        f = g → s0 = s1 →
          plot_taylor_approximations f x0opt orders xr yr npts s0 =
            plot_taylor_approximations g x0opt orders xr yr npts s1) ∧
      ∀ (func : PyFunc) (x0opt : Option ℝ) (orders : List ℕ) (xr : XRange)
          (yr : Option (ℝ × ℝ)) (npts : ℕ) (plt0 : PltState)
          (pd : PlotData) (s : PltState),
        plot_taylor_approximations func x0opt orders xr yr npts plt0 = .ok (pd, s) →
          ∃ cmds : PltState, cmds ≠ [] ∧ s = plt0 ++ cmds := by
  refine ⟨fun N x y h => by rw [h], fun x y x₂ y₂ h1 h2 => by rw [h1, h2],
    fun X Y xo yo s X₂ Y₂ xo₂ yo₂ s₂ h1 h2 h3 h4 h5 => by rw [h1, h2, h3, h4, h5],
    fun f g x0opt orders xr yr npts s0 s1 h hs => by rw [h, hs],
    fun func x0opt orders xr yr npts plt0 pd s h => ?_⟩
  obtain ⟨cb, fxe⟩ := func
  cases cb with
  | false => exact Except.noConfusion h
  | true =>
    have h1 : defaultX0 fxe x0opt orders (sampleArray xr npts) yr plt0 =
        .ok (pd, s) := h
    rcases defaultX0_cases fxe x0opt orders (sampleArray xr npts) yr plt0 with
      ⟨x0, hok⟩ | ⟨_, _, herr⟩
    · rw [hok] at h1
      injection h1 with h2
      refine ⟨pltEmitted (sampleArray xr npts)
          ((sampleArray xr npts).map fxe.lambdified)
          (orders.map fun order => (order, orderCurve fxe x0 order (sampleArray xr npts)))
          yr, List.cons_ne_nil _ _, ?_⟩
      exact (congrArg Prod.snd h2).symm
    · rw [herr] at h1
      exact Except.noConfusion h1

/-- Witness for the amended C4 at concrete inputs: each determinism conjunct
at equal concrete arguments, and the write conjunct at the concrete call of
the counterexample input. -/
theorem C4_helpers_deterministic_witness :
    DFT_slow 2 (fun _ => 1) = DFT_slow 2 (fun _ => 1) ∧
      atomic_func 1 2 = atomic_func 1 2 ∧
      (aperture 0 0 1 1 2 ↔ aperture 0 0 1 1 2) ∧
      plot_taylor_approximations zeroPyFunc none [2] (.pair 0 1) none 3 [] =
        plot_taylor_approximations zeroPyFunc none [2] (.pair 0 1) none 3 [] ∧
      ∃ cmds : PltState, cmds ≠ [] ∧
        ([PltCmd.plot [] [], PltCmd.grid, PltCmd.legend] : PltState) = [] ++ cmds :=
  ⟨C4_helpers_deterministic.1 2 (fun _ => 1) (fun _ => 1) rfl,
    C4_helpers_deterministic.2.1 1 2 1 2 rfl rfl,
    C4_helpers_deterministic.2.2.1 0 0 1 1 2 0 0 1 1 2 rfl rfl rfl rfl rfl,
    C4_helpers_deterministic.2.2.2.1 zeroPyFunc zeroPyFunc none [2] (.pair 0 1)
      none 3 [] [] rfl rfl,
    C4_helpers_deterministic.2.2.2.2 zeroPyFunc (some 0) [] (.arr []) none 0 []
      { xs := [], base := [], curves := [] }
      [PltCmd.plot [] [], PltCmd.grid, PltCmd.legend] rfl⟩

/-- Claim C7: for a callable `func` and a tuple `xrange`,
`plot_taylor_approximations` samples `npts` evenly spaced points and, for
each entry `order` of `orders`, plots the Taylor series of the expression
about `x0` truncated at that order (order term removed) evaluated on the
same sample points; a constant approximation is broadcast as a
constant-filled array, which coincides with evaluating the constant. -/
theorem C7_plot_taylor_truncated_series (func : PyFunc) (x0 : ℝ) (orders : List ℕ)
    (a b : ℝ) (yr : Option (ℝ × ℝ)) (npts : ℕ) (plt0 : PltState)
    (hc : func.callable = true) :
    plot_taylor_approximations func (some x0) orders (.pair a b) yr npts plt0 =
      .ok ({ xs := linspace a b npts
             base := (linspace a b npts).map func.fx.lambdified
             curves := orders.map fun order =>
               (order, (linspace a b npts).map (seriesRemoveO func.fx x0 order)) },
        plt0 ++ pltEmitted (linspace a b npts)
          ((linspace a b npts).map func.fx.lambdified)
          (orders.map fun order =>
            (order, (linspace a b npts).map (seriesRemoveO func.fx x0 order))) yr) ∧
      (linspace a b npts).length = npts ∧
      ∀ i : ℕ, i < npts →
        (linspace a b npts).getD i 0 = a + (b - a) * i / ((npts - 1 : ℕ) : ℝ) := by
  refine ⟨?_, linspace_length a b npts, fun i hi => linspace_getD a b npts i hi⟩
  obtain ⟨cb, fxe⟩ := func
  cases cb with
  | false => exact Bool.noConfusion hc
  | true =>
    have hcur : (orders.map fun order => (order, orderCurve fxe x0 order (linspace a b npts)))
        = orders.map fun order =>
            (order, (linspace a b npts).map (seriesRemoveO fxe x0 order)) :=
      List.map_congr_left fun order _ => by rw [orderCurve_eq_map]
    show Except.ok (plotCurves fxe x0 orders (linspace a b npts) yr plt0) = _
    unfold plotCurves
    rw [hcur]

/-- Witness for C7 at a concrete callable function and range. -/
theorem C7_plot_taylor_truncated_series_witness :
    plot_taylor_approximations zeroPyFunc (some 0) [2] (.pair 0 1) none 3 [] =
      .ok ({ xs := linspace 0 1 3
             base := (linspace 0 1 3).map zeroPyFunc.fx.lambdified
             curves := [2].map fun order =>
               (order, (linspace 0 1 3).map (seriesRemoveO zeroPyFunc.fx 0 order)) },
        [] ++ pltEmitted (linspace 0 1 3)
          ((linspace 0 1 3).map zeroPyFunc.fx.lambdified)
          ([2].map fun order =>
            (order, (linspace 0 1 3).map (seriesRemoveO zeroPyFunc.fx 0 order))) none) ∧
      (linspace 0 1 3).length = 3 ∧
      ∀ i : ℕ, i < 3 →
        (linspace 0 1 3).getD i 0 = 0 + (1 - 0) * i / (((3 : ℕ) - 1 : ℕ) : ℝ) :=
  C7_plot_taylor_truncated_series zeroPyFunc 0 [2] 0 1 none 3 [] rfl

/-- Claim C8: every helper operation executes to completion within one
evaluation step: `DFT_slow` produces a value on every finite input, and every
call of `plot_taylor_approximations` terminates — it either completes
normally, its only loop having iterated once per entry of `orders`, or stops
at one of its two exceptions (the `ValueError` of the callability check, the
`IndexError` of `x[0]` on an empty sample array); with an explicit expansion
point every callable call completes normally.  No helper loops or recurses
unboundedly: the embeddings are structurally terminating. -/
theorem C8_all_helpers_terminate :
    (∀ (N : ℕ) (x : Fin N → ℝ) (k : Fin N), ∃ c : ℂ, DFT_slow N x k = c) ∧
      (∀ (func : PyFunc) (x0opt : Option ℝ) (orders : List ℕ) (xr : XRange)
          (yr : Option (ℝ × ℝ)) (npts : ℕ) (plt0 : PltState),
        (∃ pd s, plot_taylor_approximations func x0opt orders xr yr npts plt0 =
            .ok (pd, s) ∧ pd.curves.length = orders.length) ∨
          ∃ e, plot_taylor_approximations func x0opt orders xr yr npts plt0 =
            .error e) ∧
      ∀ (func : PyFunc) (x0 : ℝ) (orders : List ℕ) (xr : XRange)
          (yr : Option (ℝ × ℝ)) (npts : ℕ) (plt0 : PltState),
        func.callable = true →
          ∃ pd s, plot_taylor_approximations func (some x0) orders xr yr npts plt0 =
            .ok (pd, s) ∧ pd.curves.length = orders.length := by
  refine ⟨fun N x k => ⟨_, rfl⟩, ?_, ?_⟩
  · intro func x0opt orders xr yr npts plt0
    obtain ⟨cb, fxe⟩ := func
    cases cb with
    | false => exact Or.inr ⟨_, rfl⟩
    | true =>
      rcases defaultX0_cases fxe x0opt orders (sampleArray xr npts) yr plt0 with
        ⟨x0, hok⟩ | ⟨_, _, herr⟩
      · exact Or.inl ⟨_, _, hok, List.length_map _ _⟩
      · exact Or.inr ⟨_, herr⟩
  · intro func x0 orders xr yr npts plt0 hc
    obtain ⟨cb, fxe⟩ := func
    cases cb with
    | false => exact Bool.noConfusion hc
    | true => exact ⟨_, _, rfl, List.length_map _ _⟩

/-- Witness for C8 at a concrete callable function and inputs, exercising
both the completion disjunct and the explicit-expansion-point conjunct. -/
theorem C8_all_helpers_terminate_witness :
    ((∃ pd s, plot_taylor_approximations zeroPyFunc none [2, 4] (.pair 0 1) none 5 [] =
        .ok (pd, s) ∧ pd.curves.length = [2, 4].length) ∨
      ∃ e, plot_taylor_approximations zeroPyFunc none [2, 4] (.pair 0 1) none 5 [] =
        .error e) ∧
      ∃ pd s, plot_taylor_approximations zeroPyFunc (some 0) [2, 4] (.pair 0 1) none 5 [] =
        .ok (pd, s) ∧ pd.curves.length = [2, 4].length :=
  ⟨C8_all_helpers_terminate.2.1 zeroPyFunc none [2, 4] (.pair 0 1) none 5 [],
    C8_all_helpers_terminate.2.2 zeroPyFunc 0 [2, 4] (.pair 0 1) none 5 [] rfl⟩

/-- Claim C10: `DFT_slow` first coerces its argument with
`np.asarray(x, dtype=float)`, so a complex-valued input makes the coercion
fail (no DFT of the complex signal is computed), while on a real-valued
input the coercion succeeds and the transform of the real signal is
returned. -/
theorem C10_complex_input_coercion_fails :
    (∀ (xs : List PyNum) (z : ℂ), PyNum.cplx z ∈ xs →
        ∃ e, DFT_slow_py xs = .error e) ∧
      ∀ rs : List ℝ, DFT_slow_py (rs.map PyNum.real) =
        .ok ((List.finRange rs.length).map (DFT_slow rs.length rs.get)) := by
  constructor
  · intro xs z hz
    rcases asarray_float_error_of_cplx xs z hz with ⟨e, he⟩
    exact ⟨e, by rw [DFT_slow_py, he]⟩
  · intro rs
    rw [DFT_slow_py, asarray_float_map_real]

/-- Witness for C10: a singleton complex input fails, a singleton real
input is transformed. -/
theorem C10_complex_input_coercion_fails_witness :
    (∃ e, DFT_slow_py [PyNum.cplx Complex.I] = .error e) ∧
      DFT_slow_py [PyNum.real 1] =
        .ok ((List.finRange 1).map (DFT_slow 1 (fun n => [(1 : ℝ)].get n))) :=
  ⟨C10_complex_input_coercion_fails.1 [PyNum.cplx Complex.I] Complex.I
      (List.mem_singleton.mpr rfl),
    C10_complex_input_coercion_fails.2 [1]⟩
